import Mathlib

/-!
Shallow embedding of the ra-data-nestjsx-crud data provider
(src/packages/data-provider/src/index.ts) and proofs about it.

JavaScript values reaching the provider are modelled by the inductive
type `Value`; JS objects are association lists with unique keys in
insertion order, JS `undefined` is modelled by `Option.none` at the
places where it can occur, and a thrown `TypeError` is modelled by
`Except.error`.
-/

namespace RaCrud

/-- Model of the JSON-like JavaScript values handled by the provider.
`blob d` models a browser `File` object whose `FileReader.readAsDataURL`
result is the data URL `d`. -/
inductive Value where
  | null
  | bool (b : Bool)
  | num (n : Int)
  | str (s : String)
  | blob (dataUrl : String)
  | arr (elems : List Value)
  | obj (fields : List (String × Value))
deriving Repr

mutual

/-- Structural equality test on values (JS strict equality on primitives;
the embedding identifies structurally equal composite values). -/
def beqValue : Value → Value → Bool
  | .null, .null => true
  | .bool a, .bool b => a == b
  | .num a, .num b => a == b
  | .str a, .str b => a == b
  | .blob a, .blob b => a == b
  | .arr a, .arr b => beqElems a b
  | .obj a, .obj b => beqFields a b
  | _, _ => false

/-- Elementwise equality test on value lists. -/
def beqElems : List Value → List Value → Bool
  | [], [] => true
  | a :: as, b :: bs => beqValue a b && beqElems as bs
  | _, _ => false

/-- Entrywise equality test on object field lists. -/
def beqFields : List (String × Value) → List (String × Value) → Bool
  | [], [] => true
  | (k1, v1) :: as, (k2, v2) :: bs =>
      k1 == k2 && beqValue v1 v2 && beqFields as bs
  | _, _ => false

end

mutual

/-- Correctness of `beqValue`. -/
theorem beqValue_iff : (a b : Value) → (beqValue a b = true ↔ a = b)
  | .null, .null => by simp [beqValue]
  | .null, .bool _ => by simp [beqValue]
  | .null, .num _ => by simp [beqValue]
  | .null, .str _ => by simp [beqValue]
  | .null, .blob _ => by simp [beqValue]
  | .null, .arr _ => by simp [beqValue]
  | .null, .obj _ => by simp [beqValue]
  | .bool _, .null => by simp [beqValue]
  | .bool a, .bool b => by simp [beqValue]
  | .bool _, .num _ => by simp [beqValue]
  | .bool _, .str _ => by simp [beqValue]
  | .bool _, .blob _ => by simp [beqValue]
  | .bool _, .arr _ => by simp [beqValue]
  | .bool _, .obj _ => by simp [beqValue]
  | .num _, .null => by simp [beqValue]
  | .num _, .bool _ => by simp [beqValue]
  | .num a, .num b => by simp [beqValue]
  | .num _, .str _ => by simp [beqValue]
  | .num _, .blob _ => by simp [beqValue]
  | .num _, .arr _ => by simp [beqValue]
  | .num _, .obj _ => by simp [beqValue]
  | .str _, .null => by simp [beqValue]
  | .str _, .bool _ => by simp [beqValue]
  | .str _, .num _ => by simp [beqValue]
  | .str a, .str b => by simp [beqValue]
  | .str _, .blob _ => by simp [beqValue]
  | .str _, .arr _ => by simp [beqValue]
  | .str _, .obj _ => by simp [beqValue]
  | .blob _, .null => by simp [beqValue]
  | .blob _, .bool _ => by simp [beqValue]
  | .blob _, .num _ => by simp [beqValue]
  | .blob _, .str _ => by simp [beqValue]
  | .blob a, .blob b => by simp [beqValue]
  | .blob _, .arr _ => by simp [beqValue]
  | .blob _, .obj _ => by simp [beqValue]
  | .arr _, .null => by simp [beqValue]
  | .arr _, .bool _ => by simp [beqValue]
  | .arr _, .num _ => by simp [beqValue]
  | .arr _, .str _ => by simp [beqValue]
  | .arr _, .blob _ => by simp [beqValue]
  | .arr a, .arr b => by simp [beqValue, beqElems_iff a b]
  | .arr _, .obj _ => by simp [beqValue]
  | .obj _, .null => by simp [beqValue]
  | .obj _, .bool _ => by simp [beqValue]
  | .obj _, .num _ => by simp [beqValue]
  | .obj _, .str _ => by simp [beqValue]
  | .obj _, .blob _ => by simp [beqValue]
  | .obj _, .arr _ => by simp [beqValue]
  | .obj a, .obj b => by simp [beqValue, beqFields_iff a b]

/-- Correctness of `beqElems`. -/
theorem beqElems_iff : (a b : List Value) → (beqElems a b = true ↔ a = b)
  | [], [] => by simp [beqElems]
  | [], _ :: _ => by simp [beqElems]
  | _ :: _, [] => by simp [beqElems]
  | a :: as, b :: bs => by
      simp [beqElems, beqValue_iff a b, beqElems_iff as bs]

/-- Correctness of `beqFields`. -/
theorem beqFields_iff :
    (a b : List (String × Value)) → (beqFields a b = true ↔ a = b)
  | [], [] => by simp [beqFields]
  | [], _ :: _ => by simp [beqFields]
  | _ :: _, [] => by simp [beqFields]
  | (k1, v1) :: as, (k2, v2) :: bs => by
      simp [beqFields, beqValue_iff v1 v2, beqFields_iff as bs]

end

instance : DecidableEq Value := fun a b =>
  decidable_of_iff (beqValue a b = true) (beqValue_iff a b)

instance {ε α : Type} [DecidableEq ε] [DecidableEq α] :
    DecidableEq (Except ε α)
  | .error e, .error f =>
      if h : e = f then .isTrue (by rw [h])
      else .isFalse fun hh => h (Except.error.inj hh)
  | .error _, .ok _ => .isFalse fun hh => Except.noConfusion hh
  | .ok _, .error _ => .isFalse fun hh => Except.noConfusion hh
  | .ok a, .ok b =>
      if h : a = b then .isTrue (by rw [h])
      else .isFalse fun hh => h (Except.ok.inj hh)

/-- Property read `fields[k]` on a JS object: first binding wins
(JS objects cannot hold duplicate keys); `none` models `undefined`. -/
def jsLookup (fields : List (String × Value)) (k : String) : Option Value :=
  match fields with
  | [] => none
  | (k2, v) :: rest => if k2 = k then some v else jsLookup rest k

/-- Property write `fields[k] = v` on a JS object: updates the existing
binding in place (keeping its position) or appends a new one. -/
def jsSet (fields : List (String × Value)) (k : String) (v : Value) :
    List (String × Value) :=
  match fields with
  | [] => [(k, v)]
  | (k2, w) :: rest =>
      if k2 = k then (k2, v) :: rest else (k2, w) :: jsSet rest k v

/-- Object spread / `Object.assign` merge `\x7b...a, ...b\x7d`: keys of `a`
keep their positions with values overridden by `b`, and keys new in `b`
are appended in `b` order. -/
def jsMergeFields (a b : List (String × Value)) : List (String × Value) :=
  (a.map fun kv =>
    match jsLookup b kv.1 with
    | some v => (kv.1, v)
    | none => kv) ++
  b.filter fun kv => (jsLookup a kv.1).isNone

mutual

/-- JS string coercion of a value as used in template literals. -/
def jsToString : Value → String
  | .null => "null"
  | .bool b => if b then "true" else "false"
  | .num n => toString n
  | .str s => s
  | .blob _ => "[object File]"
  | .arr xs => jsToStringElems xs
  | .obj _ => "[object Object]"

/-- Array-to-string coercion: elements joined by commas. -/
def jsToStringElems : List Value → String
  | [] => ""
  | [v] => jsToString v
  | v :: rest => jsToString v ++ "," ++ jsToStringElems rest

end

/-- Truthiness of a JS value (`Boolean(v)`).  Objects, arrays and `File`
objects are always truthy. -/
def truthy : Value → Bool
  | .null => false
  | .bool b => b
  | .num n => n != 0
  | .str s => s != ""
  | _ => true

/-- The `[object Object]` check of react-admin's `isValidObject`: a plain
object with at least one own key.  Arrays, `File` objects and primitives
fail the check and are treated as flattening leaves. -/
def isValidObject : Value → Bool
  | .obj fields => !fields.isEmpty
  | _ => false

/-- Dotted key built by `path.join(".")`. -/
def joinPath (path : List String) : String :=
  String.intercalate "." path

mutual

/-- react-admin `fetchUtils.flattenObject`, as the list of flattened
key/value bindings.  A non-object at the top level has no own enumerable
string keys relevant to `composeFilter` (the provider always passes the
rest object of a destructuring there), so it contributes no bindings. -/
def flattenV (path : List String) : Value → List (String × Value)
  | .obj fields =>
      if fields.isEmpty then
        if path.isEmpty then [] else [(joinPath path, .obj fields)]
      else flattenFields path fields
  | v => if path.isEmpty then [] else [(joinPath path, v)]

/-- `Object.assign(\x7b\x7d, ...keys.map(key => flattenObject(value[key], ...)))`:
children are flattened in key order and merged left to right. -/
def flattenFields (path : List String) :
    List (String × Value) → List (String × Value)
  | [] => []
  | (k, v) :: rest =>
      jsMergeFields (flattenV (path ++ [k]) v) (flattenFields path rest)

end

/-- Top-level flattening of a filter object. -/
def flattenTop (v : Value) : List (String × Value) :=
  flattenV [] v

/-- JS `key.split("||")` on the character list of a key: segments between
non-overlapping left-to-right occurrences of the two-pipe delimiter. -/
def splitPipes : List Char → List (List Char)
  | [] => [[]]
  | '|' :: '|' :: rest => [] :: splitPipes rest
  | c :: rest =>
      match splitPipes rest with
      | [] => [[c]]
      | seg :: segs => (c :: seg) :: segs

/-- JS `field.split(/\.(.+)/)[1]`: the text captured by the group, i.e.
the characters after the first dot that is followed by at least one
non-newline character, up to the next newline; `none` models the JS
`undefined` produced when the regex does not match anywhere. -/
def captureAfterDot : List Char → Option (List Char)
  | [] => none
  | c :: rest =>
      if c = '.' then
        match rest with
        | [] => none
        | c2 :: _ =>
            if c2 = '\n' then captureAfterDot rest
            else some (rest.takeWhile fun x => x != '\n')
      else captureAfterDot rest

/-- JS regex test `value.match(/^\d+$/) !== null` on a string: nonempty
and made of ASCII digits only (without the `m` flag, `^`/`$` anchor to
the whole string). -/
def isAllDigits (s : String) : Bool :=
  !s.toList.isEmpty && s.toList.all Char.isDigit

/-- JS `field.startsWith("_")`. -/
def jsStartsWithUnderscore (s : String) : Bool :=
  match s.toList with
  | '_' :: _ => true
  | _ => false

/-- JS `field.includes(".")`. -/
def jsContainsDot (s : String) : Bool :=
  s.toList.contains '.'

/-- Condition operators of the `@nestjsx/crud-request` `CondOperator`
enum used by the provider. -/
def CondOperator.EQUALS : String := "$eq"

/-- Containment operator `CondOperator.CONTAINS`. -/
def CondOperator.CONTAINS : String := "$cont"

/-- Inclusion operator `CondOperator.IN`. -/
def CondOperator.IN : String := "$in"

/-- A `QueryFilter` triple of `@nestjsx/crud-request`.  `field = none`
models the JS `undefined` field name that the normalization step can
produce. -/
structure QueryFilter where
  field : Option String
  operator : String
  value : Value
deriving DecidableEq, Repr

/-- One iteration of the `Object.keys(flatFilter).map` body of
`composeFilter`: operator inference for keys without a truthy explicit
operator suffix, and field-name normalization for keys starting with an
underscore and containing a dot.  Calling `.match` on a value that is
neither a number nor a string throws a `TypeError`, modelled by
`Except.error`. -/
def composeFilterOne (kv : String × Value) : Except String QueryFilter := do
  let key := kv.1
  let parts := splitPipes key.toList
  let field0 := String.mk (parts.headD [])
  let ops0 : Option String := (parts.get? 1).map String.mk
  let ops ←
    if ops0.getD "" ≠ "" then pure (ops0.getD "")
    else
      match kv.2 with
      | .num _ => pure CondOperator.EQUALS
      | .str s =>
          pure (if isAllDigits s then CondOperator.EQUALS
                else CondOperator.CONTAINS)
      | _ => Except.error "TypeError"
  let field : Option String :=
    if jsStartsWithUnderscore field0 && jsContainsDot field0 then
      (captureAfterDot field0.toList).map String.mk
    else some field0
  pure { field := field, operator := ops, value := kv.2 }

/-- JS `Array.prototype.map` with a body that can throw: the first
exception aborts the whole map. -/
def mapExcept {α β : Type} (f : α → Except String β) :
    List α → Except String (List β)
  | [] => .ok []
  | x :: xs =>
      match f x with
      | .error e => .error e
      | .ok y =>
          match mapExcept f xs with
          | .error e => .error e
          | .ok ys => .ok (y :: ys)

/-- The provider's `composeFilter`: flatten the filter object and build
one `QueryFilter` per flattened key. -/
def composeFilter (paramsFilter : Value) : Except String (List QueryFilter) :=
  mapExcept composeFilterOne (flattenTop paramsFilter)

/-- The provider's `readFileAsDataUrl`: when the value is an object whose
truthy `rawFile` property is a `File`, the file is read as a base64 data
URL; any other value is returned unchanged. -/
def readFileAsDataUrl (file : Value) : Value :=
  match file with
  | .obj fields =>
      match jsLookup fields "rawFile" with
      | some (.blob d) => .str d
      | _ => file
  | _ => file

/-- The provider's `transformFileIntoBase64`: arrays are converted
elementwise through `Promise.all` (order preserved), other values through
a single `readFileAsDataUrl`. -/
def transformFileIntoBase64 (files : Value) : Value :=
  match files with
  | .arr xs => .arr (xs.map readFileAsDataUrl)
  | v => readFileAsDataUrl v

/-- The `Object.keys(base64).reduce(async (data, key) => \x7b ... \x7d, \x7b\x7d)`
accumulation inside `getParamsWithBase64Files`.  The reducer is an async
function but the initial accumulator is a plain object, so from the second
iteration on the accumulator is a pending Promise: the property write
`data[key] = ...` then lands on the Promise object itself and is discarded
when the Promise is awaited.  Only the first key's binding reaches the
awaited result object. -/
def base64ReduceFiles (base64Fields : List (String × Value)) :
    List (String × Value) :=
  match base64Fields with
  | [] => []
  | (k, v) :: _ => [(k, transformFileIntoBase64 v)]

/-- The provider's `getParamsWithBase64Files`: split the reserved key off
the payload, return the payload unchanged when it is absent, otherwise
merge the (buggily reduced, see `base64ReduceFiles`) converted files back
over the remaining payload.  The embedding assumes the payload value is an
object, which is what `update`, `updateMany` and `create` pass (a record
or a `countDiff` result); a non-object is returned unchanged like a
payload without the reserved key. -/
def getParamsWithBase64Files (data : Value) (base64Key : String) : Value :=
  match data with
  | .obj fields =>
      match jsLookup fields base64Key with
      | none => data
      | some base64 =>
          let dataPayload := fields.filter fun kv => kv.1 ≠ base64Key
          let files :=
            match base64 with
            | .obj bfields => base64ReduceFiles bfields
            | _ => []
          .obj (jsMergeFields dataPayload files)
  | _ => data

/-- The provider's `readFile`: `file?.rawFile || file`. -/
def readFile (file : Value) : Value :=
  match file with
  | .obj fields =>
      match jsLookup fields "rawFile" with
      | some raw => if truthy raw then raw else file
      | none => file
  | _ => file

/-- The provider's `transformFileIntoFormDataFile`: arrays elementwise,
other values through a single `readFile`. -/
def transformFileIntoFormDataFile (files : Value) : Value :=
  match files with
  | .arr xs => .arr (xs.map readFile)
  | v => readFile v

/-- An entry appended to a `FormData`: either a string (the result of
JS string coercion) or a raw `File`. -/
inductive FormEntry where
  | str (s : String)
  | file (dataUrl : String)
deriving DecidableEq, Repr

mutual

/-- The provider's recursive `createFormData`, as the ordered list of
appended `FormData` entries.  `for..in` iterates own enumerable keys in
insertion order; `null` values recurse into an empty iteration and
contribute nothing; arrays recurse with their indices as keys; nested
objects use bracketed key paths; `File` values are appended raw;
remaining primitives are appended string-coerced.  (`Date` values do not
occur among the modelled values.) -/
def createFormDataV (formKey : String) (v : Value) : List (String × FormEntry) :=
  match v with
  | .null => []
  | .blob d => [(formKey, .file d)]
  | .arr xs => createFormDataElems formKey 0 xs
  | .obj fields => createFormDataFields (some formKey) fields
  | prim => [(formKey, .str (jsToString prim))]

/-- Array part of `createFormData`: indices become bracketed keys. -/
def createFormDataElems (ns : String) (i : Nat) :
    List Value → List (String × FormEntry)
  | [] => []
  | v :: rest =>
      createFormDataV (ns ++ "[" ++ toString i ++ "]") v ++
        createFormDataElems ns (i + 1) rest

/-- Object part of `createFormData`: each property is processed with its
(possibly namespaced) form key. -/
def createFormDataFields (ns : Option String) :
    List (String × Value) → List (String × FormEntry)
  | [] => []
  | (k, v) :: rest =>
      let formKey := match ns with
        | some n => n ++ "[" ++ k ++ "]"
        | none => k
      createFormDataV formKey v ++ createFormDataFields ns rest

end

/-- The payload produced by the file transformers: either a plain value
(later JSON-stringified) or a `FormData`. -/
inductive Payload where
  | value (v : Value)
  | formData (entries : List (String × FormEntry))
deriving DecidableEq, Repr

/-- The provider's `getParamsWithFileUploadFiles`: return the payload
unchanged when the reserved key is absent; otherwise unwrap every file
field over the remaining payload and serialize everything into a
`FormData`.  All keys under the reserved key are processed (the
`Promise.all` over `Object.keys` map resolves its assignments in key
order).  As for `getParamsWithBase64Files`, the payload is an object at
every call site. -/
def getParamsWithFileUploadFiles (data : Value) (fileUploadKey : String) :
    Payload :=
  match data with
  | .obj fields =>
      match jsLookup fields fileUploadKey with
      | none => .value data
      | some fileUpload =>
          let dataPayload := fields.filter fun kv => kv.1 ≠ fileUploadKey
          let uploadFields :=
            match fileUpload with
            | .obj ufields => ufields
            | _ => []
          let dataPayload := uploadFields.foldl
            (fun acc kv => jsSet acc kv.1 (transformFileIntoFormDataFile kv.2))
            dataPayload
          .formData (createFormDataFields none dataPayload)
  | _ => .value data

/-- Hexadecimal digit for percent- and unicode-escapes. -/
def hexDigit (n : Nat) : Char :=
  (String.toList "0123456789ABCDEF").getD n '0'

/-- JSON string escaping of one character, per `JSON.stringify`. -/
def escapeJsonChar (c : Char) : String :=
  if c = '"' then "\\\""
  else if c = '\\' then "\\\\"
  else if c = '\n' then "\\n"
  else if c = '\r' then "\\r"
  else if c = '\t' then "\\t"
  else if c = Char.ofNat 8 then "\\b"
  else if c = Char.ofNat 12 then "\\f"
  else if c.toNat < 32 then
    "\\u00" ++ String.mk [hexDigit (c.toNat / 16), hexDigit (c.toNat % 16)]
  else String.singleton c

/-- JSON string literal for `s`. -/
def jsonQuote (s : String) : String :=
  "\"" ++ String.join (s.toList.map escapeJsonChar) ++ "\""

mutual

/-- `JSON.stringify` over the modelled values.  A `File` has no own
enumerable properties and stringifies to an empty object. -/
def jsonStringify : Value → String
  | .null => "null"
  | .bool b => if b then "true" else "false"
  | .num n => toString n
  | .str s => jsonQuote s
  | .blob _ => "\x7b\x7d"
  | .arr xs => "[" ++ jsonStringifyElems xs ++ "]"
  | .obj fields => "\x7b" ++ jsonStringifyFields fields ++ "\x7d"

/-- Array elements of `JSON.stringify`, joined by commas. -/
def jsonStringifyElems : List Value → String
  | [] => ""
  | [v] => jsonStringify v
  | v :: rest => jsonStringify v ++ "," ++ jsonStringifyElems rest

/-- Object members of `JSON.stringify`, in insertion order. -/
def jsonStringifyFields : List (String × Value) → String
  | [] => ""
  | [(k, v)] => jsonQuote k ++ ":" ++ jsonStringify v
  | (k, v) :: rest =>
      jsonQuote k ++ ":" ++ jsonStringify v ++ "," ++ jsonStringifyFields rest

end

/-- An HTTP request body: a JSON-stringified payload or a `FormData`
(which the transport sends as multipart instead of a JSON string). -/
inductive Body where
  | json (s : String)
  | form (entries : List (String × FormEntry))
deriving DecidableEq, Repr

/-- The `data instanceof FormData ? data : JSON.stringify(data)` branch
shared by `update`, `updateMany` and `create`. -/
def payloadBody : Payload → Body
  | .value v => .json (jsonStringify v)
  | .formData entries => .form entries

/-- The provider's `countDiff`:
`omitBy(o1, (v, k) => o2[k] === v)` keeps exactly the bindings of `o1`
whose value differs from the value held by `o2` under the same key
(absence in `o2` counts as different). -/
def countDiff (o1 o2 : List (String × Value)) : List (String × Value) :=
  o1.filter fun kv => !decide (jsLookup o2 kv.1 = some kv.2)

/-- A `QuerySort` of `@nestjsx/crud-request`. -/
structure QuerySort where
  field : String
  order : String
deriving DecidableEq, Repr

/-- The state accumulated by a `RequestQueryBuilder` method chain.  The
builder comes from the external `@nestjsx/crud-request` package, so its
`query()` string rendering is kept symbolic: a request carries the
builder state that the query string encodes. -/
structure BuilderState where
  filter : List QueryFilter := []
  limit : Option Int := none
  page : Option Int := none
  sortList : List QuerySort := []
  offset : Option Int := none
deriving DecidableEq, Repr

/-- `RequestQueryBuilder.create(\x7bfilter\x7d)`. -/
def BuilderState.create (filter : List QueryFilter) : BuilderState :=
  { filter := filter }

/-- `.setLimit(n)`. -/
def BuilderState.setLimit (b : BuilderState) (n : Int) : BuilderState :=
  { b with limit := some n }

/-- `.setPage(n)`. -/
def BuilderState.setPage (b : BuilderState) (n : Int) : BuilderState :=
  { b with page := some n }

/-- `.sortBy(s)` appends one sort directive. -/
def BuilderState.sortBy (b : BuilderState) (s : QuerySort) : BuilderState :=
  { b with sortList := b.sortList ++ [s] }

/-- `.setOffset(n)`. -/
def BuilderState.setOffset (b : BuilderState) (n : Int) : BuilderState :=
  { b with offset := some n }

/-- UTF-8 bytes of a character, for percent-encoding. -/
def utf8Bytes (c : Char) : List Nat :=
  let n := c.toNat
  if n < 0x80 then [n]
  else if n < 0x800 then [0xC0 + n / 0x40, 0x80 + n % 0x40]
  else if n < 0x10000 then
    [0xE0 + n / 0x1000, 0x80 + (n / 0x40) % 0x40, 0x80 + n % 0x40]
  else
    [0xF0 + n / 0x40000, 0x80 + (n / 0x1000) % 0x40,
     0x80 + (n / 0x40) % 0x40, 0x80 + n % 0x40]

/-- Percent-encoding of one byte. -/
def percentByte (b : Nat) : String :=
  "%" ++ String.mk [hexDigit (b / 16), hexDigit (b % 16)]

/-- node `querystring.escape` (the `encodeURIComponent` character set). -/
def qsEscape (s : String) : String :=
  String.join (s.toList.map fun c =>
    if c.isAlphanum || c ∈ ['-', '_', '.', '!', '~', '*', '\'', '(', ')'] then
      String.singleton c
    else String.join ((utf8Bytes c).map percentByte))

/-- node `querystring` coercion of a primitive leaf to its textual form
(objects and other non-primitives stringify to the empty string). -/
def qsPrim : Value → String
  | .str s => s
  | .num n => toString n
  | .bool b => if b then "true" else "false"
  | _ => ""

/-- node `querystring.stringify` on flattened pairs: array values repeat
the key, everything percent-encoded and joined with ampersands. -/
def qsStringifyPairs (pairs : List (String × Value)) : String :=
  String.intercalate "&"
    (pairs.flatMap fun kv =>
      match kv.2 with
      | .arr xs => xs.map fun e => qsEscape kv.1 ++ "=" ++ qsEscape (qsPrim e)
      | v => [qsEscape kv.1 ++ "=" ++ qsEscape (qsPrim v)])

/-- The provider's `composeQueryParams`:
`stringify(fetchUtils.flattenObject(queryParams))`.  `none` models the
absent (`undefined`) pass-through bucket; flattening a non-object returns
it unchanged and `querystring.stringify` of a non-object is `""`. -/
def composeQueryParams (queryParams : Option Value) : String :=
  match queryParams with
  | none => ""
  | some v =>
      if isValidObject v then qsStringifyPairs (flattenTop v) else ""

/-- An HTTP request issued by the provider.  The URL is
`path ++ "?" ++ query` where `query` joins `queryParams` and the
rendering of `queryBuilder` with an ampersand (`mergeEncodedQueries`);
both query parts are `none` for the record-style operations that pass no
query string. -/
structure HttpRequest where
  method : String
  path : String
  queryParams : Option String := none
  queryBuilder : Option BuilderState := none
  body : Option Body := none
deriving DecidableEq, Repr

/-- Pagination parameters of a list-style call. -/
structure Pagination where
  page : Int
  perPage : Int
deriving DecidableEq, Repr

/-- Parameters of `getList`. -/
structure GetListParams where
  pagination : Pagination
  sort : QuerySort
  filter : Option Value := none
deriving DecidableEq, Repr

/-- Request construction of the provider's `getList`: destructure the
pass-through bucket `q` off `params.filter || \x7b\x7d`, compose the filter
conditions, and chain the `RequestQueryBuilder` setters.  The result is
`Except.error` when `composeFilter` throws. -/
def getListRequest (apiUrl resource : String) (p : GetListParams) :
    Except String HttpRequest := do
  let fobj := match p.filter with
    | none => Value.obj []
    | some v => if truthy v then v else Value.obj []
  let qv : Option Value := match fobj with
    | .obj fields => jsLookup fields "q"
    | _ => none
  let restFields : List (String × Value) := match fobj with
    | .obj fields => fields.filter fun kv => kv.1 ≠ "q"
    | _ => []
  let conds ← composeFilter (.obj restFields)
  let b := ((((BuilderState.create conds).setLimit
      p.pagination.perPage).setPage
      p.pagination.page).sortBy
      p.sort).setOffset ((p.pagination.page - 1) * p.pagination.perPage)
  pure { method := "GET", path := apiUrl ++ "/" ++ resource,
         queryParams := some (composeQueryParams qv),
         queryBuilder := some b, body := none }

/-- Property read `v[k]` on an arbitrary value; `none` models
`undefined`. -/
def objGet (v : Value) (k : String) : Option Value :=
  match v with
  | .obj fields => jsLookup fields k
  | _ => none

/-- The `\x7bdata, total\x7d` envelope returned by list-style calls. -/
structure GetListResult where
  data : Option Value
  total : Option Value
deriving DecidableEq, Repr

/-- Response mapping of `getList`:
`(\x7bjson\x7d) => (\x7bdata: json.data, total: json.total\x7d)`. -/
def getListMapResponse (json : Value) : GetListResult :=
  { data := objGet json "data", total := objGet json "total" }

/-- Parameters of `update`.  `data` and `previousData` are records
(`Record<string, any>` in the source's `countDiff` signature). -/
structure UpdateParams where
  id : Value
  data : List (String × Value)
  previousData : List (String × Value)
deriving DecidableEq, Repr

/-- Request construction of the provider's `update`: diff the record
against the previously-held one, run both file transformers over the
diff, and PATCH the serialized result. -/
def updateRun (apiUrl resource base64Key fileUploadKey : String)
    (p : UpdateParams) : HttpRequest :=
  let data0 := Value.obj (countDiff p.data p.previousData)
  let data1 := getParamsWithBase64Files data0 base64Key
  let data2 := getParamsWithFileUploadFiles data1 fileUploadKey
  { method := "PATCH",
    path := apiUrl ++ "/" ++ resource ++ "/" ++ jsToString p.id,
    body := some (payloadBody data2) }

/-- Parameters of `updateMany` before the call. -/
structure UpdateManyParams where
  ids : List Value
  data : Value
deriving DecidableEq, Repr

/-- Observable outcome of `updateMany`: the caller's params object after
the two `params.data = ...` reassignments (`ids` is never reassigned) and
the issued sub-requests. -/
structure UpdateManyOutcome where
  ids : List Value
  finalData : Payload
  requests : List HttpRequest
deriving DecidableEq, Repr

/-- The provider's `updateMany`: transform `params.data` in place, then
PUT the same serialized payload once per id. -/
def updateManyRun (apiUrl resource base64Key fileUploadKey : String)
    (p : UpdateManyParams) : UpdateManyOutcome :=
  let d1 := getParamsWithBase64Files p.data base64Key
  let d2 := getParamsWithFileUploadFiles d1 fileUploadKey
  { ids := p.ids, finalData := d2,
    requests := p.ids.map fun id =>
      { method := "PUT",
        path := apiUrl ++ "/" ++ resource ++ "/" ++ jsToString id,
        body := some (payloadBody d2) } }

/-- Observable outcome of `create`: the reassigned `params.data` and the
single POST request. -/
structure CreateOutcome where
  finalData : Payload
  request : HttpRequest
deriving DecidableEq, Repr

/-- The provider's `create`: transform `params.data` in place, then POST
the serialized payload. -/
def createRun (apiUrl resource base64Key fileUploadKey : String)
    (data : Value) : CreateOutcome :=
  let d1 := getParamsWithBase64Files data base64Key
  let d2 := getParamsWithFileUploadFiles d1 fileUploadKey
  { finalData := d2,
    request := { method := "POST", path := apiUrl ++ "/" ++ resource,
                 body := some (payloadBody d2) } }

/-- Request construction of the provider's `delete` (and of each
`deleteMany` sub-request). -/
def deleteRequest (apiUrl resource : String) (id : Value) : HttpRequest :=
  { method := "DELETE",
    path := apiUrl ++ "/" ++ resource ++ "/" ++ jsToString id }

/-- Own enumerable properties contributed by an object spread `...json`;
spreading `undefined`, `null` or a number contributes nothing, spreading
a string or an array contributes its indexed elements. -/
def spreadFields : Option Value → List (String × Value)
  | some (.obj fields) => fields
  | some (.arr xs) => xs.enum.map fun iv => (toString iv.1, iv.2)
  | some (.str s) =>
      s.toList.enum.map fun ic => (toString ic.1, .str (String.singleton ic.2))
  | _ => []

/-- The `\x7bdata\x7d` envelope of `delete`. -/
structure DeleteResult where
  data : Value
deriving DecidableEq, Repr

/-- Response mapping of `delete`:
`(\x7bjson\x7d) => (\x7bdata: \x7b...json, id: params.id\x7d\x7d)`.  `json` is `none` when
the server returned an empty body. -/
def deleteMapResponse (json : Option Value) (id : Value) : DeleteResult :=
  { data := .obj (jsSet (spreadFields json) "id" id) }

/-- The sub-requests of `deleteMany`: one DELETE per id, all built from
the parameters alone, so every request is issued without waiting for any
other to complete. -/
def deleteManyRequests (apiUrl resource : String) (ids : List Value) :
    List HttpRequest :=
  ids.map (deleteRequest apiUrl resource)

/-- `Promise.all` over settled sub-results, in request order: resolves
with all values in order once every promise resolved, rejects with the
first rejection otherwise. -/
def promiseAll {α : Type} : List (Except String α) → Except String (List α)
  | [] => .ok []
  | .error e :: _ => .error e
  | .ok a :: rest => (promiseAll rest).map fun as => a :: as

/-- The `\x7bdata\x7d` envelope of `deleteMany`; each entry is one server
response body (`none` for an empty body). -/
structure DeleteManyResult where
  data : List (Option Value)
deriving DecidableEq, Repr

/-- Response aggregation of `deleteMany`:
`Promise.all(...).then(responses => (\x7bdata: responses.map((\x7bjson\x7d) => json)\x7d))`.
The passed ids never enter this mapping. -/
def deleteManyAggregate (responses : List (Except String (Option Value))) :
    Except String DeleteManyResult :=
  (promiseAll responses).map fun js => { data := js }

/-!
Helper lemmas about the embedded definitions.
-/

theorem mem_of_jsLookup_eq_some {d : List (String × Value)} {k : String}
    {v : Value} (h : jsLookup d k = some v) : (k, v) ∈ d := by
  induction d with
  | nil => simp [jsLookup] at h
  | cons kv rest ih =>
      obtain ⟨k2, w⟩ := kv
      by_cases hk : k2 = k
      · rw [jsLookup, if_pos hk] at h
        injection h with h2
        subst hk; subst h2
        exact List.mem_cons_self _ _
      · rw [jsLookup, if_neg hk] at h
        exact List.mem_cons_of_mem _ (ih h)

theorem jsLookup_eq_some_of_mem {d : List (String × Value)} {k : String}
    {v : Value} (hd : (d.map Prod.fst).Nodup) (h : (k, v) ∈ d) :
    jsLookup d k = some v := by
  induction d with
  | nil => simp at h
  | cons kv rest ih =>
      obtain ⟨k2, w⟩ := kv
      simp only [List.map_cons, List.nodup_cons] at hd
      rcases List.mem_cons.mp h with h1 | h1
      · rw [Prod.mk.injEq] at h1
        obtain ⟨hk, hv⟩ := h1
        subst hk; subst hv
        rw [jsLookup, if_pos rfl]
      · have hk : k2 ≠ k := by
          intro he
          subst he
          exact hd.1 (List.mem_map_of_mem Prod.fst h1)
        rw [jsLookup, if_neg hk]
        exact ih hd.2 h1

theorem mem_keys_countDiff (d p : List (String × Value))
    (hd : (d.map Prod.fst).Nodup) (k : String) :
    k ∈ (countDiff d p).map Prod.fst ↔
      k ∈ d.map Prod.fst ∧ jsLookup d k ≠ jsLookup p k := by
  constructor
  · intro h
    obtain ⟨⟨k2, v⟩, hmem, hk⟩ := List.mem_map.mp h
    cases hk
    obtain ⟨hmemd, hne⟩ := List.mem_filter.mp hmem
    refine ⟨List.mem_map_of_mem Prod.fst hmemd, ?_⟩
    have hlk : jsLookup d k2 = some v := jsLookup_eq_some_of_mem hd hmemd
    simp only [Bool.not_eq_true', decide_eq_false_iff_not] at hne
    intro heq
    rw [hlk] at heq
    exact hne heq.symm
  · rintro ⟨hin, hne⟩
    obtain ⟨⟨k2, v⟩, hmem, hk⟩ := List.mem_map.mp hin
    cases hk
    have hlk : jsLookup d k2 = some v := jsLookup_eq_some_of_mem hd hmem
    refine List.mem_map.mpr ⟨(k2, v), List.mem_filter.mpr ⟨hmem, ?_⟩, rfl⟩
    simp only [Bool.not_eq_true', decide_eq_false_iff_not]
    intro hp
    rw [hlk, hp] at hne
    exact hne rfl

theorem mapExcept_ok_get {α β : Type} (f : α → Except String β) :
    ∀ (xs : List α) (ys : List β), mapExcept f xs = .ok ys →
      ∀ (i : Nat) (x : α), xs.get? i = some x →
        ∃ y, ys.get? i = some y ∧ f x = .ok y := by
  intro xs
  induction xs with
  | nil => intro ys _ i x hx; simp at hx
  | cons a as ih =>
      intro ys h i x hx
      cases hfa : f a with
      | error e => simp [mapExcept, hfa] at h
      | ok b =>
          cases hfs : mapExcept f as with
          | error e => simp [mapExcept, hfa, hfs] at h
          | ok bs =>
              simp only [mapExcept, hfa, hfs] at h
              injection h with h2
              subst h2
              cases i with
              | zero =>
                  simp only [List.get?] at hx
                  injection hx with h3
                  subst h3
                  exact ⟨b, rfl, hfa⟩
              | succ n =>
                  simp only [List.get?] at hx
                  exact ih bs hfs n x hx

theorem captureAfterDot_append (seg rest : List Char)
    (hseg : ∀ c ∈ seg, c ≠ '.') (hrest : rest ≠ [])
    (hn : ∀ c ∈ rest, c ≠ '\n') :
    captureAfterDot (seg ++ '.' :: rest) = some rest := by
  induction seg with
  | nil =>
      cases rest with
      | nil => exact absurd rfl hrest
      | cons c cs =>
          have h1 : captureAfterDot ([] ++ '.' :: c :: cs) =
              if c = '\n' then captureAfterDot (c :: cs)
              else some ((c :: cs).takeWhile fun x => x != '\n') := by
            simp [captureAfterDot]
          rw [h1, if_neg (hn c (by simp))]
          have h2 : (c :: cs).takeWhile (fun x => x != '\n') = c :: cs :=
            List.takeWhile_eq_self_iff.mpr (by
              intro x hx
              simpa using hn x hx)
          rw [h2]
  | cons a asg ih =>
      have h1 : captureAfterDot ((a :: asg) ++ '.' :: rest) =
          captureAfterDot (asg ++ '.' :: rest) := by
        simp only [List.cons_append, captureAfterDot]
        rw [if_neg (hseg a (by simp))]
        rfl
      rw [h1]
      exact ih fun c hc => hseg c (by simp [hc])

theorem promiseAll_map_ok {α : Type} (as : List α) :
    promiseAll (as.map Except.ok) = .ok as := by
  induction as with
  | nil => rfl
  | cons a rest ih => simp [promiseAll, ih, Except.map]

theorem promiseAll_error {α : Type} (rs : List (Except String α)) (e : String)
    (h : Except.error e ∈ rs) : ∃ msg, promiseAll rs = .error msg := by
  induction rs with
  | nil => simp at h
  | cons r rest ih =>
      cases r with
      | error e2 => exact ⟨e2, rfl⟩
      | ok a =>
          rcases List.mem_cons.mp h with h1 | h2
          · cases h1
          · obtain ⟨msg, hmsg⟩ := ih h2
            exact ⟨msg, by simp [promiseAll, hmsg, Except.map]⟩

/-!
Claims.
-/

/-- The value classification used by the operator-inference branch:
numbers and all-digit strings count as numeric. -/
def numericLike : Value → Bool
  | .num _ => true
  | .str s => isAllDigits s
  | _ => false

/-- Field produced by a successful `composeFilterOne` on a key without
an operator suffix. -/
theorem composeFilterOne_ok_field {k : String} {v : Value} {y : QueryFilter}
    (hops : splitPipes k.toList = [k.toList])
    (h : composeFilterOne (k, v) = .ok y) :
    y.field = if jsStartsWithUnderscore k && jsContainsDot k then
        (captureAfterDot k.toList).map String.mk
      else some k := by
  have hops2 : splitPipes k.data = [k.data] := hops
  cases v with
  | num n =>
      have hone : composeFilterOne (k, Value.num n) =
          .ok { field := if jsStartsWithUnderscore k && jsContainsDot k then
                    (captureAfterDot k.toList).map String.mk
                  else some k,
                operator := CondOperator.EQUALS, value := Value.num n } := by
        simp [composeFilterOne, hops2]
        rfl
      rw [hone] at h
      injection h with h2
      subst h2
      rfl
  | str s =>
      have hone : composeFilterOne (k, Value.str s) =
          .ok { field := if jsStartsWithUnderscore k && jsContainsDot k then
                    (captureAfterDot k.toList).map String.mk
                  else some k,
                operator := if isAllDigits s then CondOperator.EQUALS
                            else CondOperator.CONTAINS,
                value := Value.str s } := by
        simp [composeFilterOne, hops2]
        rfl
      rw [hone] at h
      injection h with h2
      subst h2
      rfl
  | null => simp [composeFilterOne, hops2] at h
  | bool b => simp [composeFilterOne, hops2] at h
  | blob d => simp [composeFilterOne, hops2] at h
  | arr xs => simp [composeFilterOne, hops2] at h
  | obj fs => simp [composeFilterOne, hops2] at h

/-- C1: for every `update(resource, params)` call, the request body sent
(before any file transformation) is the `countDiff` of `params.data`
against `params.previousData`, and its bindings are exactly the keys
present in `params.data` whose value differs from the one held by
`params.previousData` (each kept with its `params.data` value). -/
theorem claim_C1_update_diff_body
    (apiUrl resource base64Key fileUploadKey : String)
    (p : UpdateParams) (hd : (p.data.map Prod.fst).Nodup) :
    (∀ k, k ∈ (countDiff p.data p.previousData).map Prod.fst ↔
        (k ∈ p.data.map Prod.fst ∧
          jsLookup p.data k ≠ jsLookup p.previousData k)) ∧
    (∀ kv, kv ∈ countDiff p.data p.previousData → kv ∈ p.data) ∧
    (updateRun apiUrl resource base64Key fileUploadKey p).body =
      some (payloadBody (getParamsWithFileUploadFiles
        (getParamsWithBase64Files
          (.obj (countDiff p.data p.previousData)) base64Key)
        fileUploadKey)) := by
  refine ⟨mem_keys_countDiff p.data p.previousData hd, ?_, rfl⟩
  intro kv hkv
  exact (List.mem_filter.mp hkv).1

/-- C1 witness: on a record where only `b` changed, the PATCH body is
exactly the serialized diff containing `b` and not `a`. -/
theorem claim_C1_witness :
    ("b" ∈ (countDiff [("a", Value.num 1), ("b", Value.num 2)]
        [("a", Value.num 1), ("b", Value.num 3)]).map Prod.fst) ∧
    ("a" ∉ (countDiff [("a", Value.num 1), ("b", Value.num 2)]
        [("a", Value.num 1), ("b", Value.num 3)]).map Prod.fst) ∧
    (updateRun "http://u" "posts" "_base64Upload" "_fileUpload"
        { id := Value.num 5, data := [("a", Value.num 1), ("b", Value.num 2)],
          previousData := [("a", Value.num 1), ("b", Value.num 3)] }).body =
      some (.json "\x7b\"b\":2\x7d") := by
  have h := claim_C1_update_diff_body "http://u" "posts" "_base64Upload"
    "_fileUpload"
    { id := Value.num 5, data := [("a", Value.num 1), ("b", Value.num 2)],
      previousData := [("a", Value.num 1), ("b", Value.num 3)] } (by decide)
  refine ⟨(h.1 "b").mpr (by decide), ?_, h.2.2.trans (by decide)⟩
  intro hmem
  exact absurd ((h.1 "a").mp hmem) (by decide)

/-- C2 counterexample: a boolean-valued filter entry whose key has no
operator suffix makes `composeFilter` throw a `TypeError`; no containment
condition is composed, contrary to the claim's "every other value"
clause. -/
theorem claim_C2_counterexample :
    composeFilter (.obj [("active", Value.bool true)]) =
      .error "TypeError" ∧
    composeFilter (.obj [("active", Value.bool true)]) ≠
      .ok [{ field := some "active", operator := CondOperator.CONTAINS,
             value := Value.bool true }] := by
  exact ⟨rfl, by decide⟩

/-- C2 (amended): for every filter entry whose key carries no operator
suffix, when filter composition succeeds the composed condition keeps the
entry's value and uses the equality operator when that value is a number
or an all-digit string and the containment operator for every other
string value; values of any other type never reach a successful
composition (they throw). -/
theorem claim_C2_operator_inference (f : Value) (conds : List QueryFilter)
    (i : Nat) (k : String) (v : Value)
    (hok : composeFilter f = .ok conds)
    (hkv : (flattenTop f).get? i = some (k, v))
    (hops : splitPipes k.toList = [k.toList]) :
    ∃ c, conds.get? i = some c ∧
      c.operator = (if numericLike v then CondOperator.EQUALS
                    else CondOperator.CONTAINS) ∧
      c.value = v ∧
      ((∃ n, v = Value.num n) ∨ (∃ s, v = Value.str s)) := by
  obtain ⟨y, hy, hfy⟩ := mapExcept_ok_get composeFilterOne _ _ hok i _ hkv
  have hops2 : splitPipes k.data = [k.data] := hops
  cases v with
  | num n =>
      have hone : composeFilterOne (k, Value.num n) =
          .ok { field := if jsStartsWithUnderscore k && jsContainsDot k then
                    (captureAfterDot k.toList).map String.mk
                  else some k,
                operator := CondOperator.EQUALS, value := Value.num n } := by
        simp [composeFilterOne, hops2]
        rfl
      rw [hone] at hfy
      injection hfy with h2
      subst h2
      exact ⟨_, hy, by simp [numericLike], rfl, Or.inl ⟨n, rfl⟩⟩
  | str s =>
      have hone : composeFilterOne (k, Value.str s) =
          .ok { field := if jsStartsWithUnderscore k && jsContainsDot k then
                    (captureAfterDot k.toList).map String.mk
                  else some k,
                operator := if isAllDigits s then CondOperator.EQUALS
                            else CondOperator.CONTAINS,
                value := Value.str s } := by
        simp [composeFilterOne, hops2]
        rfl
      rw [hone] at hfy
      injection hfy with h2
      subst h2
      exact ⟨_, hy, by simp [numericLike], rfl, Or.inr ⟨s, rfl⟩⟩
  | null => simp [composeFilterOne, hops2] at hfy
  | bool b => simp [composeFilterOne, hops2] at hfy
  | blob d => simp [composeFilterOne, hops2] at hfy
  | arr xs => simp [composeFilterOne, hops2] at hfy
  | obj fs => simp [composeFilterOne, hops2] at hfy

/-- C2 witness: the condition composed for `title: "abc"` uses the
containment operator and keeps the string value. -/
theorem claim_C2_witness :
    ∃ c, ([{ field := some "title", operator := CondOperator.CONTAINS,
             value := Value.str "abc" }] : List QueryFilter).get? 0 =
        some c ∧
      c.operator = (if numericLike (Value.str "abc") then CondOperator.EQUALS
                    else CondOperator.CONTAINS) ∧
      c.value = Value.str "abc" ∧
      ((∃ n, Value.str "abc" = Value.num n) ∨
        (∃ s, Value.str "abc" = Value.str s)) :=
  claim_C2_operator_inference (.obj [("title", Value.str "abc")])
    [{ field := some "title", operator := CondOperator.CONTAINS,
       value := Value.str "abc" }]
    0 "title" (Value.str "abc") (by decide) (by decide) (by decide)

/-- C6 counterexample: the flattened key `"_abc."` starts with the
reserved underscore and contains a dot, but the regex split produces an
undefined field name (`none`) rather than the dotted path with its
leading segment removed (which would be `some ""`). -/
theorem claim_C6_counterexample :
    composeFilter (.obj [("_abc.", Value.str "1")]) =
      .ok [{ field := none, operator := CondOperator.EQUALS,
             value := Value.str "1" }] ∧
    composeFilter (.obj [("_abc.", Value.str "1")]) ≠
      .ok [{ field := some "", operator := CondOperator.EQUALS,
             value := Value.str "1" }] := by
  exact ⟨rfl, by decide⟩

/-- C6 (amended): for every flattened filter key (without operator
suffix) that starts with the reserved underscore prefix and splits as a
non-dotted leading segment, a dot and a nonempty remainder (no newlines
involved), the field sent is the original dotted path with the leading
segment removed; keys not starting with an underscore or not containing
a dot are sent unchanged.  (A key whose only dot is its final character
instead yields an undefined field name, see the counterexample.) -/
theorem claim_C6_field_normalization (f : Value) (conds : List QueryFilter)
    (i : Nat) (k : String) (v : Value)
    (hok : composeFilter f = .ok conds)
    (hkv : (flattenTop f).get? i = some (k, v))
    (hops : splitPipes k.toList = [k.toList]) :
    (∀ seg rest, k = seg ++ "." ++ rest →
        '.' ∉ seg.toList → rest ≠ "" → '\n' ∉ k.toList →
        jsStartsWithUnderscore k = true →
        ∃ c, conds.get? i = some c ∧ c.field = some rest) ∧
    ((jsStartsWithUnderscore k = false ∨ jsContainsDot k = false) →
      ∃ c, conds.get? i = some c ∧ c.field = some k) := by
  obtain ⟨y, hy, hfy⟩ := mapExcept_ok_get composeFilterOne _ _ hok i _ hkv
  have hfield := composeFilterOne_ok_field hops hfy
  constructor
  · intro seg rest hdecomp hseg hrest hnl hund
    have hdata : k.data = seg.data ++ '.' :: rest.data := by
      rw [hdecomp]
      simp [String.data_append]
    have hdot : jsContainsDot k = true := by
      simp only [jsContainsDot, String.toList, hdata]
      simp
    have hrestd : rest.data ≠ [] := by
      intro h0
      exact hrest (String.ext h0)
    have hnl2 : ∀ c ∈ rest.data, c ≠ '\n' := by
      intro c hc he
      apply hnl
      show '\n' ∈ k.data
      rw [hdata]
      exact List.mem_append_right _ (List.mem_cons_of_mem _ (he ▸ hc))
    have hsegd : ∀ c ∈ seg.data, c ≠ '.' := by
      intro c hc he
      subst he
      exact hseg hc
    have hcap : captureAfterDot k.data = some rest.data := by
      rw [hdata]
      exact captureAfterDot_append seg.data rest.data hsegd hrestd hnl2
    refine ⟨y, hy, ?_⟩
    rw [hfield, if_pos (by simp [hund, hdot])]
    rw [show k.toList = k.data from rfl, hcap]
    rfl
  · intro hcase
    refine ⟨y, hy, ?_⟩
    rw [hfield, if_neg ?_]
    rcases hcase with h1 | h1
    · rw [h1]
      simp
    · rw [h1]
      simp

/-- C6 witness: the nested filter key `_posts.title` is sent as the
field `title`. -/
theorem claim_C6_witness :
    ∃ c, ([{ field := some "title", operator := CondOperator.CONTAINS,
             value := Value.str "x" }] : List QueryFilter).get? 0 =
        some c ∧
      c.field = some "title" := by
  have h := claim_C6_field_normalization
    (.obj [("_posts", .obj [("title", Value.str "x")])])
    [{ field := some "title", operator := CondOperator.CONTAINS,
       value := Value.str "x" }]
    0 "_posts.title" (Value.str "x") (by decide) (by decide) (by decide)
  exact h.1 "_posts" "title" (by decide) (by decide) (by decide) (by decide)
    (by decide)

/-- C8: filter composition is not guarded against values that are
neither numbers nor strings; a `null` entry (and likewise an array
entry) reaching the numeric-match regex throws a `TypeError` instead of
producing a filter condition. -/
theorem claim_C8_unguarded_match_throws :
    composeFilter (.obj [("flag", Value.null)]) = .error "TypeError" ∧
    composeFilter (.obj [("good", Value.str "x"),
                         ("bad", Value.arr [Value.num 1])]) =
      .error "TypeError" := by
  exact ⟨rfl, rfl⟩

/-- C3 counterexample: `deleteMany("posts", \x7bids: [1]\x7d)` with a server
that returns an empty object produces the record `\x7b\x7d` without the passed
id, contrary to the claim that both delete variants merge the id in. -/
theorem claim_C3_counterexample :
    deleteManyRequests "http://api" "posts" [Value.num 1] =
      [{ method := "DELETE",
         path := "http://api" ++ "/" ++ "posts" ++ "/" ++ "1" }] ∧
    deleteManyAggregate [Except.ok (some (Value.obj []))] =
      .ok { data := [some (Value.obj [])] } ∧
    deleteManyAggregate [Except.ok (some (Value.obj []))] ≠
      .ok { data := [some (Value.obj [("id", Value.num 1)])] } := by
  exact ⟨rfl, rfl, by decide⟩

/-- C3 (amended): `delete` returns the server's JSON response merged
with the passed id (the id alone when the server returned an empty
body), while `deleteMany` returns each server response unchanged,
without merging the ids in. -/
theorem claim_C3_delete_id_merge :
    (∀ (id : Value) (fields : List (String × Value)),
      deleteMapResponse (some (.obj fields)) id =
        { data := .obj (jsSet fields "id" id) }) ∧
    (∀ id : Value,
      deleteMapResponse none id = { data := .obj [("id", id)] }) ∧
    (∀ js : List (Option Value),
      deleteManyAggregate (js.map Except.ok) = .ok { data := js }) := by
  refine ⟨fun id fields => rfl, fun id => rfl, fun js => ?_⟩
  simp [deleteManyAggregate, promiseAll_map_ok, Except.map]

/-- C4: evaluating `getParamsWithBase64Files` at a payload whose
reserved key holds two file fields shows that the second field is
silently dropped (the async reducer's accumulator is a Promise from the
second iteration on), contradicting the claim that every field under the
reserved key is converted; a single field - including an array of blobs,
order preserved - is converted as the claim describes. -/
theorem claim_C4_second_field_dropped :
    getParamsWithBase64Files
      (.obj [("keep", Value.num 1),
             ("_base64Upload",
               .obj [("f1", .obj [("rawFile", Value.blob "data:AAA")]),
                     ("f2", .obj [("rawFile", Value.blob "data:BBB")])])])
      "_base64Upload" =
      .obj [("keep", Value.num 1), ("f1", Value.str "data:AAA")] ∧
    getParamsWithBase64Files
      (.obj [("keep", Value.num 1),
             ("_base64Upload",
               .obj [("f1", .obj [("rawFile", Value.blob "data:AAA")]),
                     ("f2", .obj [("rawFile", Value.blob "data:BBB")])])])
      "_base64Upload" ≠
      .obj [("keep", Value.num 1), ("f1", Value.str "data:AAA"),
            ("f2", Value.str "data:BBB")] ∧
    getParamsWithBase64Files
      (.obj [("_base64Upload",
               .obj [("pics", .arr [.obj [("rawFile", Value.blob "u1")],
                                    .obj [("rawFile", Value.blob "u2")]])])])
      "_base64Upload" =
      .obj [("pics", .arr [Value.str "u1", Value.str "u2"])] := by
  exact ⟨rfl, by decide, rfl⟩

/-- C5: `getList("posts", ...)` with page 2, page size 10, ascending
title sort and filter `title: "abc"` issues a single GET request to
`apiUrl/posts` whose query encodes a containment condition on `title`
with value `"abc"`, a title-ascending sort directive, limit 10 and
offset 10; the response `\x7bjson: \x7bdata: rows, total: 42\x7d\x7d` maps to
`\x7bdata: rows, total: 42\x7d`. -/
theorem claim_C5_getList_example (apiUrl : String) :
    getListRequest apiUrl "posts"
      { pagination := { page := 2, perPage := 10 },
        sort := { field := "title", order := "ASC" },
        filter := some (.obj [("title", Value.str "abc")]) } =
      .ok { method := "GET", path := apiUrl ++ "/" ++ "posts",
            queryParams := some "",
            queryBuilder := some
              { filter := [{ field := some "title",
                             operator := CondOperator.CONTAINS,
                             value := Value.str "abc" }],
                limit := some 10, page := some 2,
                sortList := [{ field := "title", order := "ASC" }],
                offset := some 10 },
            body := none } ∧
    (∀ rows : Value,
      getListMapResponse (.obj [("data", rows), ("total", Value.num 42)]) =
        { data := some rows, total := some (Value.num 42) }) := by
  exact ⟨rfl, fun rows => rfl⟩

/-- C7: `deleteMany("posts", \x7bids: [1, 2, 3]\x7d)` issues three DELETE
requests, one per id, all built from the parameters alone (issued
without waiting on each other); the aggregation resolves exactly when
every response resolved, with the response bodies in the original id
order, and rejects whenever any sub-response rejected. -/
theorem claim_C7_deleteMany_fanout :
    deleteManyRequests "http://api" "posts"
        [Value.num 1, Value.num 2, Value.num 3] =
      [{ method := "DELETE", path := "http://api/posts/1" },
       { method := "DELETE", path := "http://api/posts/2" },
       { method := "DELETE", path := "http://api/posts/3" }] ∧
    (∀ r1 r2 r3 : Option Value,
      deleteManyAggregate [.ok r1, .ok r2, .ok r3] =
        .ok { data := [r1, r2, r3] }) ∧
    (∀ (responses : List (Except String (Option Value))) (e : String),
      Except.error e ∈ responses →
      ∃ msg, deleteManyAggregate responses = .error msg) := by
  refine ⟨rfl, fun r1 r2 r3 => rfl, fun responses e he => ?_⟩
  obtain ⟨msg, hmsg⟩ := promiseAll_error responses e he
  exact ⟨msg, by simp [deleteManyAggregate, hmsg, Except.map]⟩

/-- C7 witness: a failing second sub-request rejects the whole
aggregation. -/
theorem claim_C7_witness :
    ∃ msg, deleteManyAggregate [Except.ok (some (Value.obj [])),
        Except.error "NetworkError"] = .error msg :=
  claim_C7_deleteMany_fanout.2.2
    [Except.ok (some (Value.obj [])), Except.error "NetworkError"]
    "NetworkError" (by decide)

/-- C9: a payload object without the reserved base64 key (respectively
without the reserved file-upload key) is returned unchanged by the
corresponding file transformer. -/
theorem claim_C9_no_reserved_key_identity (fields : List (String × Value))
    (base64Key fileUploadKey : String)
    (h1 : jsLookup fields base64Key = none)
    (h2 : jsLookup fields fileUploadKey = none) :
    getParamsWithBase64Files (.obj fields) base64Key = .obj fields ∧
    getParamsWithFileUploadFiles (.obj fields) fileUploadKey =
      .value (.obj fields) := by
  constructor
  · simp [getParamsWithBase64Files, h1]
  · simp [getParamsWithFileUploadFiles, h2]

/-- C9 witness: identity on a concrete payload without reserved keys. -/
theorem claim_C9_witness :
    getParamsWithBase64Files (.obj [("a", Value.num 1)]) "_base64Upload" =
      .obj [("a", Value.num 1)] ∧
    getParamsWithFileUploadFiles (.obj [("a", Value.num 1)]) "_fileUpload" =
      .value (.obj [("a", Value.num 1)]) :=
  claim_C9_no_reserved_key_identity [("a", Value.num 1)] "_base64Upload"
    "_fileUpload" (by decide) (by decide)

/-- C10: `create` and `updateMany` reassign the caller's `params.data`
to the file-transformed payload before the HTTP calls; `updateMany`
uses that same single transformed payload as the body of every per-id
sub-request, and the other parameter fields (`ids`) are left
unchanged. -/
theorem claim_C10_params_mutation
    (apiUrl resource base64Key fileUploadKey : String)
    (p : UpdateManyParams) (data : Value) :
    ((updateManyRun apiUrl resource base64Key fileUploadKey p).ids =
      p.ids) ∧
    ((updateManyRun apiUrl resource base64Key fileUploadKey p).finalData =
      getParamsWithFileUploadFiles
        (getParamsWithBase64Files p.data base64Key) fileUploadKey) ∧
    ((updateManyRun apiUrl resource base64Key fileUploadKey
        p).requests.length = p.ids.length) ∧
    (∀ r ∈ (updateManyRun apiUrl resource base64Key fileUploadKey
        p).requests,
      r.method = "PUT" ∧
      r.body = some (payloadBody
        (updateManyRun apiUrl resource base64Key fileUploadKey
          p).finalData)) ∧
    ((createRun apiUrl resource base64Key fileUploadKey data).finalData =
      getParamsWithFileUploadFiles
        (getParamsWithBase64Files data base64Key) fileUploadKey) ∧
    ((createRun apiUrl resource base64Key fileUploadKey
        data).request.body =
      some (payloadBody
        (createRun apiUrl resource base64Key fileUploadKey
          data).finalData)) := by
  refine ⟨rfl, rfl, by simp [updateManyRun], ?_, rfl, rfl⟩
  intro r hr
  obtain ⟨id, hid, heq⟩ := List.mem_map.mp hr
  rw [← heq]
  exact ⟨rfl, rfl⟩

/-- C10 witness: with two ids, the first issued PUT request carries the
single transformed payload as its body. -/
theorem claim_C10_witness :
    ({ method := "PUT", path := "http://u/posts/1",
       body := some (.json "\x7b\"t\":\"x\"\x7d") } : HttpRequest).method =
      "PUT" ∧
    ({ method := "PUT", path := "http://u/posts/1",
       body := some (.json "\x7b\"t\":\"x\"\x7d") } : HttpRequest).body =
      some (payloadBody (updateManyRun "http://u" "posts" "_base64Upload"
        "_fileUpload"
        { ids := [Value.num 1, Value.num 2],
          data := Value.obj [("t", Value.str "x")] }).finalData) :=
  (claim_C10_params_mutation "http://u" "posts" "_base64Upload"
    "_fileUpload"
    { ids := [Value.num 1, Value.num 2],
      data := Value.obj [("t", Value.str "x")] }
    (Value.obj [("t", Value.str "x")])).2.2.2.1
    { method := "PUT", path := "http://u/posts/1",
      body := some (.json "\x7b\"t\":\"x\"\x7d") } (by decide)

end RaCrud
